import Mathlib

/-
Verification of a console chess program.

The development shallowly embeds the two Python source files of the
repository (basic_chess.py and piece_classes.py): the board is an
association list from square-notation strings to pieces, the six piece
classes become one `Piece` structure with a `PieceType` tag, and each
`valid_moves` method, the coordinate transforms, and the move-application
logic of `ChessGame` are transcribed function by function.  Raised Python
exceptions are modelled with `Option`/explicit error values.
-/

namespace BasicChess

/-- Tag distinguishing the six piece classes of piece_classes.py. -/
inductive PieceType
  | pawn
  | rook
  | knight
  | bishop
  | queen
  | king
deriving DecidableEq

/-- A piece object: its class tag, `_color`, `_position` and `_init_move`
fields.  In the source only `Pawn.__init__` sets `_init_move` (to True);
`ChessGame.make_move` later assigns it on every moved piece and only pawn
move generation reads it, so giving every freshly built piece the value
True is observationally faithful.  The `_board` back-reference is not
stored: `valid_moves` receives the board as an explicit argument. -/
structure Piece where
  ptype : PieceType
  color : String
  position : String
  initMove : Bool
deriving DecidableEq

/-- The `_init_pos` dictionary of `ChessGame`: both the initial layout and
the live board, mapping square strings to pieces. -/
abbrev Board := List (String × Piece)

/-- First-match lookup, the model of Python dict access on `_init_pos`
(keys are unique in every state the program builds). -/
def lookupSq : Board → String → Option Piece
  | [], _ => none
  | (k, v) :: rest, key => if k = key then some v else lookupSq rest key

/-- Model of `self._init_pos.pop(key)`. -/
def eraseKey (b : Board) (key : String) : Board :=
  b.filter (fun e => e.1 != key)

/-- Model of `self._init_pos[key] = v` (replace if present, else add). -/
def setKey : Board → String → Piece → Board
  | [], key, v => [(key, v)]
  | (k, w) :: rest, key, v =>
    if k = key then (key, v) :: rest else (k, w) :: setKey rest key v

/-- Model of `str.lower()` (character-wise ASCII case folding, which is
what it does on the square strings this program handles). -/
def pyLower (s : String) : String := String.mk (s.data.map Char.toLower)

/-- Digit-string evaluation helper for the model of `int()`. -/
def digitsValAux : List Char → Nat → Option Nat
  | [], acc => some acc
  | c :: rest, acc =>
    if c.isDigit then digitsValAux rest (acc * 10 + (c.toNat - 48)) else none

/-- Value of a nonempty all-digit character list; `none` otherwise. -/
def digitsVal (l : List Char) : Option Nat :=
  match l with
  | [] => none
  | _ => digitsValAux l 0

/-- Model of Python `int()` on the strings this program feeds it: an
optional sign (`Char.ofNat 43` is the plus sign, `Char.ofNat 45` the
minus sign) followed by decimal digits; `none` models a raised
ValueError.  (Python additionally strips whitespace and underscores;
such inputs do not occur here.) -/
def pyInt (s : String) : Option Int :=
  match s.data with
  | [] => none
  | c :: rest =>
    if c = Char.ofNat 43 then (digitsVal rest).map Int.ofNat
    else if c = Char.ofNat 45 then (digitsVal rest).map (fun n => -(n : Int))
    else (digitsVal s.data).map Int.ofNat

/-- `ChessGame.coord_to_index`.  Python computes
`col = ord(coord_str[0].lower()) - 97` and `row = 8 - int(coord_str[1:])`;
it raises IndexError on the empty string and ValueError when `int` fails,
both modelled as `none`.  Note that it performs no range check at all. -/
def coord_to_index (s : String) : Option (Int × Int) :=
  match s.data with
  | [] => none
  | c :: rest =>
    match pyInt (String.mk rest) with
    | none => none
    | some n => some (((c.toLower.toNat : Int) - 97, 8 - n))

/-- The value `coord_to_index` yields on its success path; every caller
inside the game only reaches it with strings on which parsing succeeds. -/
def coord_to_indexD (s : String) : Int × Int := (coord_to_index s).getD (0, 0)

/-- `ChessGame.index_to_coord`: `chr(col + 97)` concatenated with
`str((7 - row) + 1)`.  Python `chr` on the in-range arguments used by the
program agrees with `Char.ofNat` on the corresponding Nat. -/
def index_to_coord (col row : Int) : String :=
  let letter_a_ascii : Int := 97
  let col_ascii := col + letter_a_ascii
  let col_letter := Char.ofNat col_ascii.toNat
  let row2 := 7 - row
  let row_num := toString (row2 + 1)
  String.singleton col_letter ++ row_num

/-- `ChessGame.parse_position`: converts two notation strings, catching
ValueError/IndexError from either conversion (the Python version then
prints a diagnostic and returns `(None, None)`). -/
def parse_position (from_pos to_pos : String) :
    Option ((Int × Int) × (Int × Int)) :=
  match coord_to_index from_pos, coord_to_index to_pos with
  | some f, some t => some (f, t)
  | _, _ => none

/-- `ChessGame.is_square_open` (a method in the source; it only reads the
board): `position.lower() not in self._init_pos` — dict values are never
None, so the second disjunct of the Python test is vacuous. -/
def is_square_open (b : Board) (position : String) : Bool :=
  (lookupSq b (pyLower position)).isNone

/-- `ChessGame.is_opponent`: the piece at the (lowercased) square, if any,
has a different color. -/
def is_opponent (b : Board) (position color : String) : Bool :=
  match lookupSq b (pyLower position) with
  | none => false
  | some piece => piece.color != color

/-- `Pawn.valid_moves`: single forward step onto an open square; a double
step when `_init_move` is still set and the (bounds-checked) double-step
square is open — the source never tests the intermediate square there;
then the two diagonal captures onto opponent-held squares. -/
def pawn_valid_moves (b : Board) (p : Piece) : List String :=
  let start := coord_to_indexD p.position
  let start_col := start.1
  let start_row := start.2
  let direction : Int := if p.color = "WHITE" then 1 else -1
  let forward_reg := start_row - direction
  let forwards :=
    if 0 ≤ forward_reg ∧ forward_reg < 8 then
      let move_forward := index_to_coord start_col forward_reg
      (if is_square_open b move_forward then [move_forward] else []) ++
      (if p.initMove then
        let fm := start_row - 2 * direction
        if 0 ≤ fm ∧ fm < 8 then
          let forward_move1 := index_to_coord start_col fm
          if is_square_open b forward_move1 then [forward_move1] else []
        else []
      else [])
    else []
  let captures :=
    ([-1, 1] : List Int).flatMap (fun diagonal =>
      let cap_col := start_col + diagonal
      if 0 ≤ cap_col ∧ cap_col < 8 then
        let cap_pos := index_to_coord cap_col forward_reg
        if is_opponent b cap_pos p.color then [cap_pos] else []
      else [])
  forwards ++ captures

/-- One direction of a sliding-piece scan, at distances `move`,
`move + 1`, … while `n` iterations remain: stop (only) on leaving the
board, append open squares and opponent-held squares, and keep scanning
otherwise — exactly the loop bodies of `Rook.valid_moves` (a
`for move in range(1, 8)` loop) and of `Bishop.valid_moves` /
`Queen.valid_moves` (`while True` loops that step one square at a time;
with a unit direction from an on-board start, step 8 is always off the
board, so those loops perform the same seven probes). -/
def sweepAux (b : Board) (color : String) (sc sr dc dr : Int) :
    Nat → Int → List String
  | 0, _ => []
  | n + 1, move =>
    let to_col := sc + dc * move
    let to_row := sr + dr * move
    if 0 ≤ to_col ∧ to_col < 8 ∧ 0 ≤ to_row ∧ to_row < 8 then
      (if is_square_open b (index_to_coord to_col to_row) then
        [index_to_coord to_col to_row]
      else if is_opponent b (index_to_coord to_col to_row) color then
        [index_to_coord to_col to_row]
      else []) ++ sweepAux b color sc sr dc dr n (move + 1)
    else []

/-- Full scan of one direction, distances 1 through 7. -/
def sweepDir (b : Board) (color : String) (sc sr dc dr : Int) : List String :=
  sweepAux b color sc sr dc dr 7 1

/-- `Rook.valid_moves`: scans the four axis directions in source order. -/
def rook_valid_moves (b : Board) (p : Piece) : List String :=
  let start := coord_to_indexD p.position
  ([(0, 1), (1, 0), (0, -1), (-1, 0)] : List (Int × Int)).flatMap
    (fun d => sweepDir b p.color start.1 start.2 d.1 d.2)

/-- `Bishop.valid_moves`: scans the four diagonal directions. -/
def bishop_valid_moves (b : Board) (p : Piece) : List String :=
  let start := coord_to_indexD p.position
  ([(-1, 1), (1, 1), (-1, -1), (1, -1)] : List (Int × Int)).flatMap
    (fun d => sweepDir b p.color start.1 start.2 d.1 d.2)

/-- `Queen.valid_moves`: scans all eight directions. -/
def queen_valid_moves (b : Board) (p : Piece) : List String :=
  let start := coord_to_indexD p.position
  ([(-1, 0), (1, 0), (0, -1), (0, 1), (-1, -1), (-1, 1), (1, -1), (1, 1)] :
      List (Int × Int)).flatMap
    (fun d => sweepDir b p.color start.1 start.2 d.1 d.2)

/-- `Knight.valid_moves`: the eight L-shaped offsets, kept when in bounds
and the target square is open or opponent-held. -/
def knight_valid_moves (b : Board) (p : Piece) : List String :=
  let start := coord_to_indexD p.position
  ([(2, 1), (1, 2), (-1, 2), (-2, 1), (-2, -1), (-1, -2), (1, -2), (2, -1)] :
      List (Int × Int)).flatMap
    (fun d =>
      let to_col := start.1 + d.1
      let to_row := start.2 + d.2
      if 0 ≤ to_col ∧ to_col < 8 ∧ 0 ≤ to_row ∧ to_row < 8 then
        let pos := index_to_coord to_col to_row
        if is_square_open b pos || is_opponent b pos p.color then [pos]
        else []
      else [])

/-- `King.valid_moves`: the eight single-step offsets, same legality test
as the knight. -/
def king_valid_moves (b : Board) (p : Piece) : List String :=
  let start := coord_to_indexD p.position
  ([(-1, 0), (1, 0), (0, -1), (0, 1), (-1, -1), (-1, 1), (1, -1), (1, 1)] :
      List (Int × Int)).flatMap
    (fun d =>
      let to_col := start.1 + d.1
      let to_row := start.2 + d.2
      if 0 ≤ to_col ∧ to_col < 8 ∧ 0 ≤ to_row ∧ to_row < 8 then
        let target_pos := index_to_coord to_col to_row
        if is_square_open b target_pos || is_opponent b target_pos p.color then
          [target_pos]
        else []
      else [])

/-- The `piece.valid_moves()` dynamic dispatch over the six classes. -/
def valid_moves (b : Board) (p : Piece) : List String :=
  match p.ptype with
  | PieceType.pawn => pawn_valid_moves b p
  | PieceType.rook => rook_valid_moves b p
  | PieceType.knight => knight_valid_moves b p
  | PieceType.bishop => bishop_valid_moves b p
  | PieceType.queen => queen_valid_moves b p
  | PieceType.king => king_valid_moves b p

/-- The raised `InvalidStateError` exception class. -/
inductive ChessErr
  | invalidState
deriving DecidableEq

/-- The `all_states` list of `ChessGame.set_game_state`. -/
def all_states : List String := ["UNFINISHED", "WHITE_WON", "BLACK_WON"]

/-- The `ChessGame` object: `_game_state`, `_player_turn`, `_init_pos`.
(The `_pieces` glyph table only feeds `display_board`, which is pure
console output and carries no game state.) -/
structure ChessGame where
  gameState : String
  playerTurn : String
  board : Board
deriving DecidableEq

/-- `ChessGame.set_game_state`: assign when the value is one of the three
recognized states, otherwise raise InvalidStateError — modelled as the
unchanged game paired with the error. -/
def set_game_state (g : ChessGame) (game_state : String) :
    ChessGame × Option ChessErr :=
  if game_state ∈ all_states then ({ g with gameState := game_state }, none)
  else (g, some ChessErr.invalidState)

/-- `ChessGame.toggle_turn`. -/
def toggle_turn (player_turn : String) : String :=
  if player_turn = "WHITE" then "BLACK" else "WHITE"

/-- `ChessGame.get_piece` on a notation string: lowercased dict lookup. -/
def get_piece (g : ChessGame) (pos : String) : Option Piece :=
  lookupSq g.board (pyLower pos)

/-- `ChessGame.get_piece` on a `(col, row)` tuple: converted through
`index_to_coord` first. -/
def get_piece_idx (g : ChessGame) (pos : Int × Int) : Option Piece :=
  get_piece g (index_to_coord pos.1 pos.2)

/-- `ChessGame.is_valid_move`: fetch the origin piece (printing and
failing when the square is empty), then test membership of the target
notation in its `valid_moves()` list. -/
def is_valid_move (g : ChessGame) (move_from move_to : Int × Int) : Bool :=
  match get_piece_idx g move_from with
  | none => false
  | some piece =>
    decide (index_to_coord move_to.1 move_to.2 ∈ valid_moves g.board piece)

/-- The accepted-move tail of `ChessGame.make_move`: flip the state to the
mover's WON value when the destination held a King (via
`set_game_state`, whose argument there is always a recognized state),
pop the origin square, install the piece at the destination with its
`_position` and `_init_move` fields updated, and toggle the turn only
while the game is still UNFINISHED.  The `display_board` call between
those last two steps is console output with no state effect. -/
def makeMoveApply (g : ChessGame) (move_from move_to : Int × Int)
    (piece : Piece) (target_piece : Option Piece) : Bool × ChessGame :=
  let from_square := index_to_coord move_from.1 move_from.2
  let to_square := index_to_coord move_to.1 move_to.2
  let g1 :=
    match target_piece with
    | some t =>
      if t.ptype = PieceType.king then
        (set_game_state g
          (if piece.color = "WHITE" then "WHITE_WON" else "BLACK_WON")).1
      else g
    | none => g
  let piece2 := { piece with position := to_square, initMove := false }
  let g2 := { g1 with board := setKey (eraseKey g1.board from_square) to_square piece2 }
  let g3 :=
    if g2.gameState = "UNFINISHED" then
      { g2 with playerTurn := toggle_turn g2.playerTurn }
    else g2
  (true, g3)

/-- `ChessGame.make_move`: reject when the game is over, when the origin
square is empty, when the origin piece is not the current player's, or
when `is_valid_move` fails; otherwise apply the move. -/
def make_move (g : ChessGame) (move_from move_to : Int × Int) :
    Bool × ChessGame :=
  if g.gameState ≠ "UNFINISHED" then (false, g)
  else
    match get_piece_idx g move_from, get_piece_idx g move_to with
    | none, _ => (false, g)
    | some piece, target_piece =>
      if piece.color ≠ g.playerTurn then (false, g)
      else if is_valid_move g move_from move_to = false then (false, g)
      else makeMoveApply g move_from move_to piece target_piece

/-- The `Pawn(color, position, board)` constructor. -/
def Pawn (color position : String) : Piece :=
  ⟨PieceType.pawn, color, position, true⟩

/-- The `Rook(color, position, board)` constructor. -/
def Rook (color position : String) : Piece :=
  ⟨PieceType.rook, color, position, true⟩

/-- The `Knight(color, position, board)` constructor. -/
def Knight (color position : String) : Piece :=
  ⟨PieceType.knight, color, position, true⟩

/-- The `Bishop(color, position, board)` constructor. -/
def Bishop (color position : String) : Piece :=
  ⟨PieceType.bishop, color, position, true⟩

/-- The `Queen(color, position, board)` constructor. -/
def Queen (color position : String) : Piece :=
  ⟨PieceType.queen, color, position, true⟩

/-- The `King(color, position, board)` constructor. -/
def King (color position : String) : Piece :=
  ⟨PieceType.king, color, position, true⟩

/-- `ChessGame._board_start`: the `_init_pos` dictionary in source
(insertion) order. -/
def board_start : Board :=
  [("a8", Rook "BLACK" "a8"), ("b8", Knight "BLACK" "b8"),
   ("c8", Bishop "BLACK" "c8"), ("d8", King "BLACK" "d8"),
   ("e8", Queen "BLACK" "e8"), ("f8", Bishop "BLACK" "f8"),
   ("g8", Knight "BLACK" "g8"), ("h8", Rook "BLACK" "h8"),
   ("a7", Pawn "BLACK" "a7"), ("b7", Pawn "BLACK" "b7"),
   ("c7", Pawn "BLACK" "c7"), ("d7", Pawn "BLACK" "d7"),
   ("e7", Pawn "BLACK" "e7"), ("f7", Pawn "BLACK" "f7"),
   ("g7", Pawn "BLACK" "g7"), ("h7", Pawn "BLACK" "h7"),
   ("a2", Pawn "WHITE" "a2"), ("b2", Pawn "WHITE" "b2"),
   ("c2", Pawn "WHITE" "c2"), ("d2", Pawn "WHITE" "d2"),
   ("e2", Pawn "WHITE" "e2"), ("f2", Pawn "WHITE" "f2"),
   ("g2", Pawn "WHITE" "g2"), ("h2", Pawn "WHITE" "h2"),
   ("a1", Rook "WHITE" "a1"), ("b1", Knight "WHITE" "b1"),
   ("c1", Bishop "WHITE" "c1"), ("d1", Queen "WHITE" "d1"),
   ("e1", King "WHITE" "e1"), ("f1", Bishop "WHITE" "f1"),
   ("g1", Knight "WHITE" "g1"), ("h1", Rook "WHITE" "h1")]

/-- `ChessGame.__init__`: UNFINISHED, WHITE to move, `_board_start`. -/
def initialGame : ChessGame :=
  { gameState := "UNFINISHED", playerTurn := "WHITE", board := board_start }

/-- The 64 legal square notations, file a through h crossed with rank 1
through 8 (enumerated through `index_to_coord`, whose image they are). -/
def allSquares : List String :=
  (List.range 8).flatMap (fun c =>
    (List.range 8).map (fun r => index_to_coord (c : Int) (r : Int)))

/-- Canonical chess starting setup, written from the spec's words (piece
type and color expected on each square of ranks 1, 2, 7 and 8): rooks on
the a/h files, knights on b/g, bishops on c/f, queen on the d file, king
on the e file, pawns on ranks 2 and 7.  Used only to compare the source
layout against the claim. -/
def canonicalSetup (s : String) : Option (PieceType × String) :=
  match s.data with
  | [f, r] =>
    let backRank : Option PieceType :=
      if f = Char.ofNat 97 ∨ f = Char.ofNat 104 then some PieceType.rook
      else if f = Char.ofNat 98 ∨ f = Char.ofNat 103 then some PieceType.knight
      else if f = Char.ofNat 99 ∨ f = Char.ofNat 102 then some PieceType.bishop
      else if f = Char.ofNat 100 then some PieceType.queen
      else if f = Char.ofNat 101 then some PieceType.king
      else none
    if r = Char.ofNat 49 then backRank.map (fun t => (t, "WHITE"))
    else if r = Char.ofNat 50 then some (PieceType.pawn, "WHITE")
    else if r = Char.ofNat 55 then some (PieceType.pawn, "BLACK")
    else if r = Char.ofNat 56 then backRank.map (fun t => (t, "BLACK"))
    else none
  | _ => none

/-- A finished game used to exercise the frozen-outcome branch. -/
def finishedGame : ChessGame :=
  { gameState := "WHITE_WON", playerTurn := "WHITE", board := [] }

/-- A two-piece position in which WHITE's queen on a1 can capture the
BLACK king on a2. -/
def kingCapGame : ChessGame :=
  { gameState := "UNFINISHED", playerTurn := "WHITE",
    board := [("a1", Queen "WHITE" "a1"), ("a2", King "BLACK" "a2")] }

/-- A position whose e2 pawn has its forward square e3 blocked by a
friendly rook while e4 is empty. -/
def pawnBlockedBoard : Board :=
  [("e2", Pawn "WHITE" "e2"), ("e3", Rook "WHITE" "e3")]

/-! ### Basic facts about the coordinate transforms -/

/-- Unfolding of the string built by `index_to_coord`. -/
theorem itc_data (c r : Int) :
    (index_to_coord c r).data =
      Char.ofNat (c + 97).toNat :: (toString (7 - r + 1)).data := rfl

/-- The file letters of the eight columns are pairwise distinct. -/
theorem char_col_inj : ∀ a < 8, ∀ b < 8,
    Char.ofNat (a + 97) = Char.ofNat (b + 97) → a = b := by decide

/-- The decimal rank strings of 25 consecutive values are pairwise
distinct. -/
theorem rank_str_inj : ∀ a : Nat, a < 25 → ∀ b : Nat, b < 25 →
    (toString ((a : Int) - 8)).data = (toString ((b : Int) - 8)).data →
      a = b := by decide

/-- `index_to_coord` is injective for on-board columns, even when the row
argument strays moderately off the board (as pawn capture generation lets
it). -/
theorem index_to_coord_inj {c₁ r₁ c₂ r₂ : Int}
    (hc₁ : 0 ≤ c₁ ∧ c₁ < 8) (hc₂ : 0 ≤ c₂ ∧ c₂ < 8)
    (hr₁ : -8 ≤ r₁ ∧ r₁ < 16) (hr₂ : -8 ≤ r₂ ∧ r₂ < 16)
    (h : index_to_coord c₁ r₁ = index_to_coord c₂ r₂) :
    c₁ = c₂ ∧ r₁ = r₂ := by
  have hd := congrArg String.data h
  rw [itc_data, itc_data] at hd
  injection hd with hch hstr
  constructor
  · have e₁ : (c₁ + 97).toNat = c₁.toNat + 97 := by omega
    have e₂ : (c₂ + 97).toNat = c₂.toNat + 97 := by omega
    rw [e₁, e₂] at hch
    have := char_col_inj c₁.toNat (by omega) c₂.toNat (by omega) hch
    omega
  · have e₁ : (7 - r₁ + 1) = ((16 - r₁).toNat : Int) - 8 := by omega
    have e₂ : (7 - r₂ + 1) = ((16 - r₂).toNat : Int) - 8 := by omega
    rw [e₁, e₂] at hstr
    have := rank_str_inj (16 - r₁).toNat (by omega) (16 - r₂).toNat (by omega)
      hstr
    omega

/-- Round trip on the 64 on-board squares, Nat-bounded form. -/
theorem roundtrip_nat : ∀ a : Nat, a < 8 → ∀ b : Nat, b < 8 →
    coord_to_index (index_to_coord (a : Int) (b : Int)) =
      some ((a : Int), (b : Int)) := by decide

/-- Round trip on the 64 on-board squares. -/
theorem coord_to_index_itc {c r : Int}
    (hc0 : 0 ≤ c) (hc : c < 8) (hr0 : 0 ≤ r) (hr : r < 8) :
    coord_to_index (index_to_coord c r) = some (c, r) := by
  have ha : ((c.toNat : Int)) = c := Int.toNat_of_nonneg hc0
  have hb : ((r.toNat : Int)) = r := Int.toNat_of_nonneg hr0
  have h := roundtrip_nat c.toNat (by omega) r.toNat (by omega)
  rw [ha, hb] at h
  exact h

/-- Success-path value of the round trip. -/
theorem coord_to_indexD_itc {c r : Int}
    (hc0 : 0 ≤ c) (hc : c < 8) (hr0 : 0 ≤ r) (hr : r < 8) :
    coord_to_indexD (index_to_coord c r) = (c, r) := by
  rw [coord_to_indexD, coord_to_index_itc hc0 hc hr0 hr]
  rfl

/-- On-board square notations are already lowercase. -/
theorem pyLower_itc_nat : ∀ a : Nat, a < 8 → ∀ b : Nat, b < 8 →
    pyLower (index_to_coord (a : Int) (b : Int)) =
      index_to_coord (a : Int) (b : Int) := by decide

/-- On-board square notations are already lowercase, Int form. -/
theorem pyLower_itc {c r : Int}
    (hc0 : 0 ≤ c) (hc : c < 8) (hr0 : 0 ≤ r) (hr : r < 8) :
    pyLower (index_to_coord c r) = index_to_coord c r := by
  have ha : ((c.toNat : Int)) = c := Int.toNat_of_nonneg hc0
  have hb : ((r.toNat : Int)) = r := Int.toNat_of_nonneg hr0
  have h := pyLower_itc_nat c.toNat (by omega) r.toNat (by omega)
  rw [ha, hb] at h
  exact h

/-! ### Dictionary lemmas -/

/-- Lookup after `pop`. -/
theorem lookupSq_eraseKey (b : Board) (key s : String) :
    lookupSq (eraseKey b key) s = if s = key then none else lookupSq b s := by
  induction b with
  | nil => simp [eraseKey, lookupSq]
  | cons e rest ih =>
    obtain ⟨k, v⟩ := e
    by_cases hk : k = key <;> by_cases hs : s = key <;> by_cases hks : k = s <;>
      simp_all [eraseKey, List.filter_cons, lookupSq]

/-- Lookup after dict assignment. -/
theorem lookupSq_setKey (b : Board) (key s : String) (v : Piece) :
    lookupSq (setKey b key v) s =
      if s = key then some v else lookupSq b s := by
  induction b with
  | nil =>
    by_cases hs : s = key <;> simp_all [setKey, lookupSq, eq_comm]
  | cons e rest ih =>
    obtain ⟨k, w⟩ := e
    by_cases hk : k = key <;> by_cases hs : s = key <;> by_cases hks : k = s <;>
      simp_all [setKey, lookupSq]

/-! ### Shape of the squares produced by move generation -/

/-- Every square a sliding scan emits lies at a positive multiple of the
direction from the start and is in bounds. -/
theorem mem_sweepAux {b : Board} {color : String} {sc sr dc dr : Int}
    {s : String} :
    ∀ (n : Nat) (move : Int), s ∈ sweepAux b color sc sr dc dr n move →
      ∃ k : Int, move ≤ k ∧ 0 ≤ sc + dc * k ∧ sc + dc * k < 8 ∧
        0 ≤ sr + dr * k ∧ sr + dr * k < 8 ∧
        s = index_to_coord (sc + dc * k) (sr + dr * k) := by
  intro n
  induction n with
  | zero => intro move h; simp [sweepAux] at h
  | succ n ih =>
    intro move h
    unfold sweepAux at h
    by_cases hb : 0 ≤ sc + dc * move ∧ sc + dc * move < 8 ∧
        0 ≤ sr + dr * move ∧ sr + dr * move < 8
    · rw [if_pos hb] at h
      rcases List.mem_append.mp h with h1 | h2
      · refine ⟨move, le_refl _, hb.1, hb.2.1, hb.2.2.1, hb.2.2.2, ?_⟩
        split_ifs at h1 <;> simp_all
      · obtain ⟨k, hk, h1, h2, h3, h4, he⟩ := ih (move + 1) h2
        exact ⟨k, by omega, h1, h2, h3, h4, he⟩
    · rw [if_neg hb] at h
      simp at h

/-- A sliding scan along a nonzero direction never emits its own start
square. -/
theorem own_not_mem_sweepDir {b : Board} {color : String} {c r dc dr : Int}
    (hc : 0 ≤ c ∧ c < 8) (hr : 0 ≤ r ∧ r < 8) (hd : ¬(dc = 0 ∧ dr = 0)) :
    index_to_coord c r ∉ sweepDir b color c r dc dr := by
  intro hmem
  obtain ⟨k, hk1, h1, h2, h3, h4, heq⟩ := mem_sweepAux 7 1 hmem
  obtain ⟨ec, er⟩ := index_to_coord_inj hc ⟨h1, h2⟩
    ⟨by omega, by omega⟩ ⟨by omega, by omega⟩ heq
  have hdc : dc * k = 0 := by omega
  have hdr : dr * k = 0 := by omega
  have hk0 : k ≠ 0 := by omega
  rcases mul_eq_zero.mp hdc with h | h
  · rcases mul_eq_zero.mp hdr with h' | h'
    · exact hd ⟨h, h'⟩
    · exact hk0 h'
  · exact hk0 h

/-- No piece variant ever lists its own square among its valid moves
(for a piece standing on an on-board square). -/
theorem own_not_mem_valid_moves (b : Board) (p : Piece) (c r : Int)
    (hc0 : 0 ≤ c) (hc : c < 8) (hr0 : 0 ≤ r) (hr : r < 8)
    (hpos : p.position = index_to_coord c r) :
    p.position ∉ valid_moves b p := by
  have hstart : coord_to_indexD p.position = (c, r) := by
    rw [hpos]; exact coord_to_indexD_itc hc0 hc hr0 hr
  intro hmem
  unfold valid_moves at hmem
  cases hpt : p.ptype <;> rw [hpt] at hmem
  case pawn =>
    unfold pawn_valid_moves at hmem
    rw [hstart, hpos] at hmem
    have hd : (if p.color = "WHITE" then (1 : Int) else -1) = 1 ∨
        (if p.color = "WHITE" then (1 : Int) else -1) = -1 := by
      split <;> simp
    set d := (if p.color = "WHITE" then (1 : Int) else -1) with hdd
    simp only at hmem
    rcases List.mem_append.mp hmem with h1 | h2
    · have h1' : index_to_coord c r = index_to_coord c (r - d) ∨
          index_to_coord c r = index_to_coord c (r - 2 * d) := by
        split_ifs at h1 <;> simp at h1 <;> tauto
      rcases h1' with h | h
      · obtain ⟨e1, e2⟩ := index_to_coord_inj ⟨hc0, hc⟩ ⟨hc0, hc⟩
          ⟨by omega, by omega⟩ ⟨by rcases hd with h' | h' <;> omega,
            by rcases hd with h' | h' <;> omega⟩ h
        rcases hd with h' | h' <;> omega
      · obtain ⟨e1, e2⟩ := index_to_coord_inj ⟨hc0, hc⟩ ⟨hc0, hc⟩
          ⟨by omega, by omega⟩ ⟨by rcases hd with h' | h' <;> omega,
            by rcases hd with h' | h' <;> omega⟩ h
        rcases hd with h' | h' <;> omega
    · simp only [List.mem_flatMap, List.mem_cons, List.not_mem_nil,
        or_false] at h2
      obtain ⟨diag, hdiag, h2⟩ := h2
      rcases hdiag with rfl | rfl
      all_goals {
        split_ifs at h2 with hb hop <;>
          simp only [List.mem_singleton, List.not_mem_nil] at h2 <;>
          try exact h2.elim
        obtain ⟨e1, e2⟩ := index_to_coord_inj ⟨hc0, hc⟩ ⟨hb.1, hb.2⟩
          ⟨by omega, by omega⟩ ⟨by rcases hd with h | h <;> omega,
            by rcases hd with h | h <;> omega⟩ h2
        omega
      }
  case rook =>
    unfold rook_valid_moves at hmem
    rw [hstart, hpos] at hmem
    simp only [List.mem_flatMap, List.mem_cons, List.not_mem_nil,
      or_false] at hmem
    obtain ⟨dir, hdir, hmem⟩ := hmem
    rcases hdir with rfl | rfl | rfl | rfl <;>
      exact own_not_mem_sweepDir ⟨hc0, hc⟩ ⟨hr0, hr⟩ (by simp) hmem
  case bishop =>
    unfold bishop_valid_moves at hmem
    rw [hstart, hpos] at hmem
    simp only [List.mem_flatMap, List.mem_cons, List.not_mem_nil,
      or_false] at hmem
    obtain ⟨dir, hdir, hmem⟩ := hmem
    rcases hdir with rfl | rfl | rfl | rfl <;>
      exact own_not_mem_sweepDir ⟨hc0, hc⟩ ⟨hr0, hr⟩ (by simp) hmem
  case queen =>
    unfold queen_valid_moves at hmem
    rw [hstart, hpos] at hmem
    simp only [List.mem_flatMap, List.mem_cons, List.not_mem_nil,
      or_false] at hmem
    obtain ⟨dir, hdir, hmem⟩ := hmem
    rcases hdir with rfl | rfl | rfl | rfl | rfl | rfl | rfl | rfl <;>
      exact own_not_mem_sweepDir ⟨hc0, hc⟩ ⟨hr0, hr⟩ (by simp) hmem
  case knight =>
    unfold knight_valid_moves at hmem
    rw [hstart, hpos] at hmem
    simp only [List.mem_flatMap, List.mem_cons, List.not_mem_nil,
      or_false] at hmem
    obtain ⟨dir, hdir, hmem⟩ := hmem
    rcases hdir with rfl | rfl | rfl | rfl | rfl | rfl | rfl | rfl
    all_goals {
      simp only at hmem
      split_ifs at hmem with hb hok <;>
        simp only [List.mem_singleton, List.not_mem_nil] at hmem <;>
        try exact hmem.elim
      obtain ⟨e1, e2⟩ := index_to_coord_inj ⟨hc0, hc⟩ ⟨hb.1, hb.2.1⟩
        ⟨by omega, by omega⟩ ⟨by omega, by omega⟩ hmem
      omega
    }
  case king =>
    unfold king_valid_moves at hmem
    rw [hstart, hpos] at hmem
    simp only [List.mem_flatMap, List.mem_cons, List.not_mem_nil,
      or_false] at hmem
    obtain ⟨dir, hdir, hmem⟩ := hmem
    rcases hdir with rfl | rfl | rfl | rfl | rfl | rfl | rfl | rfl
    all_goals {
      simp only at hmem
      split_ifs at hmem with hb hok <;>
        simp only [List.mem_singleton, List.not_mem_nil] at hmem <;>
        try exact hmem.elim
      obtain ⟨e1, e2⟩ := index_to_coord_inj ⟨hc0, hc⟩ ⟨hb.1, hb.2.1⟩
        ⟨by omega, by omega⟩ ⟨by omega, by omega⟩ hmem
      omega
    }

/-! ### Inversion of accepted moves -/

/-- Validation success means the target square is in the origin piece's
move list. -/
theorem is_valid_move_mem {g : ChessGame} {mf mt : Int × Int} {p : Piece}
    (hp : get_piece_idx g mf = some p)
    (h : is_valid_move g mf mt = true) :
    index_to_coord mt.1 mt.2 ∈ valid_moves g.board p := by
  unfold is_valid_move at h
  rw [hp] at h
  exact of_decide_eq_true h

/-- What must have held for `make_move` to return True. -/
theorem make_move_true_inv {g : ChessGame} {mf mt : Int × Int}
    {g' : ChessGame} (h : make_move g mf mt = (true, g')) :
    g.gameState = "UNFINISHED" ∧
    ∃ p, get_piece_idx g mf = some p ∧ p.color = g.playerTurn ∧
      is_valid_move g mf mt = true ∧
      makeMoveApply g mf mt p (get_piece_idx g mt) = (true, g') := by
  unfold make_move at h
  by_cases h1 : g.gameState ≠ "UNFINISHED"
  · rw [if_pos h1] at h
    exact absurd (congrArg Prod.fst h) (by simp)
  · rw [if_neg h1] at h
    push_neg at h1
    refine ⟨h1, ?_⟩
    split at h
    · exact absurd (congrArg Prod.fst h) (by simp)
    · rename_i piece heq
      by_cases h2 : piece.color ≠ g.playerTurn
      · rw [if_pos h2] at h
        exact absurd (congrArg Prod.fst h) (by simp)
      · rw [if_neg h2] at h
        push_neg at h2
        by_cases h3 : is_valid_move g mf mt = false
        · rw [if_pos h3] at h
          exact absurd (congrArg Prod.fst h) (by simp)
        · rw [if_neg h3] at h
          refine ⟨piece, heq, h2, ?_, h⟩
          revert h3
          cases is_valid_move g mf mt <;> simp

/-- The argument `make_move` hands to `set_game_state` is always one of
the recognized states, so the exception branch is unreachable there. -/
theorem set_game_state_won (g : ChessGame) (w : String)
    (hw : w = "WHITE_WON" ∨ w = "BLACK_WON") :
    set_game_state g w = ({ g with gameState := w }, none) := by
  unfold set_game_state
  rcases hw with rfl | rfl <;> simp [all_states]

/-- `set_game_state` never touches the board. -/
theorem set_game_state_board (g : ChessGame) (w : String) :
    (set_game_state g w).1.board = g.board := by
  unfold set_game_state
  split_ifs <;> rfl

/-- `set_game_state` never touches the player turn. -/
theorem set_game_state_turn (g : ChessGame) (w : String) :
    (set_game_state g w).1.playerTurn = g.playerTurn := by
  unfold set_game_state
  split_ifs <;> rfl

/-- The board an applied move produces: origin popped, moving piece (with
updated `_position` and cleared `_init_move`) installed at the
destination. -/
theorem makeMoveApply_board (g : ChessGame) (mf mt : Int × Int) (p : Piece)
    (t? : Option Piece) :
    (makeMoveApply g mf mt p t?).2.board =
      setKey (eraseKey g.board (index_to_coord mf.1 mf.2))
        (index_to_coord mt.1 mt.2)
        { p with position := index_to_coord mt.1 mt.2, initMove := false } := by
  unfold makeMoveApply
  rcases t? with _ | t <;> simp only <;> split_ifs <;>
    simp [set_game_state_board]

/-- The turn after an applied move: toggled exactly when the outcome is
still UNFINISHED afterwards. -/
theorem makeMoveApply_turn (g : ChessGame) (mf mt : Int × Int) (p : Piece)
    (t? : Option Piece) :
    (makeMoveApply g mf mt p t?).2.playerTurn =
      (if (makeMoveApply g mf mt p t?).2.gameState = "UNFINISHED"
       then toggle_turn g.playerTurn else g.playerTurn) := by
  unfold makeMoveApply
  rcases t? with _ | t <;> simp only <;> split_ifs <;>
    simp_all [set_game_state_turn]

/-- State and turn after an applied move that captured a King. -/
theorem makeMoveApply_king (g : ChessGame) (mf mt : Int × Int) (p t : Piece)
    (hk : t.ptype = PieceType.king) :
    (makeMoveApply g mf mt p (some t)).2.gameState =
      (if p.color = "WHITE" then "WHITE_WON" else "BLACK_WON") ∧
    (makeMoveApply g mf mt p (some t)).2.playerTurn = g.playerTurn := by
  unfold makeMoveApply
  simp only
  rw [if_pos hk]
  by_cases hpc : p.color = "WHITE" <;>
    simp [hpc, set_game_state, all_states]

/-- Claim C2: once the outcome is WHITE_WON or BLACK_WON every further
`make_move` call returns False and leaves the whole game unchanged; and
an accepted move whose destination held a King sets the outcome to the
moving color's WON state and performs no turn toggle. -/
theorem outcome_monotonic_king_capture (g : ChessGame) (mf mt : Int × Int) :
    (g.gameState = "WHITE_WON" ∨ g.gameState = "BLACK_WON" →
      make_move g mf mt = (false, g))
    ∧ (∀ g' p t, get_piece_idx g mf = some p → get_piece_idx g mt = some t →
        t.ptype = PieceType.king → make_move g mf mt = (true, g') →
        g'.gameState =
          (if p.color = "WHITE" then "WHITE_WON" else "BLACK_WON") ∧
        g'.playerTurn = g.playerTurn) := by
  constructor
  · intro hst
    have hne : g.gameState ≠ "UNFINISHED" := by
      rcases hst with h | h <;> simp [h]
    unfold make_move
    rw [if_pos hne]
  · intro g' p t hp ht hk h
    obtain ⟨hst, q, hq, hcol, hval, happ⟩ := make_move_true_inv h
    rw [hp] at hq
    injection hq with hq
    subst hq
    rw [ht] at happ
    have hg' : (makeMoveApply g mf mt p (some t)).2 = g' :=
      congrArg Prod.snd happ
    rw [← hg']
    exact makeMoveApply_king g mf mt p t hk

/-- Claim C3: an accepted move empties the origin square, installs the
moved piece (with updated position and cleared first-move flag) at the
destination, changes no other board entry, and toggles the turn exactly
when the outcome is still UNFINISHED afterwards. -/
theorem accepted_move_frame (g : ChessGame) (mf mt : Int × Int)
    (g' : ChessGame)
    (hb : 0 ≤ mf.1 ∧ mf.1 < 8 ∧ 0 ≤ mf.2 ∧ mf.2 < 8)
    (hinv : ∀ p, lookupSq g.board (index_to_coord mf.1 mf.2) = some p →
      p.position = index_to_coord mf.1 mf.2)
    (h : make_move g mf mt = (true, g')) :
    ∃ p, lookupSq g.board (index_to_coord mf.1 mf.2) = some p ∧
      lookupSq g'.board (index_to_coord mf.1 mf.2) = none ∧
      lookupSq g'.board (index_to_coord mt.1 mt.2) =
        some { p with position := index_to_coord mt.1 mt.2,
                      initMove := false } ∧
      (∀ s, s ≠ index_to_coord mf.1 mf.2 → s ≠ index_to_coord mt.1 mt.2 →
        lookupSq g'.board s = lookupSq g.board s) ∧
      g'.playerTurn = (if g'.gameState = "UNFINISHED" then
        toggle_turn g.playerTurn else g.playerTurn) := by
  obtain ⟨hst, p, hp, hcol, hval, happ⟩ := make_move_true_inv h
  have hlook : lookupSq g.board (index_to_coord mf.1 mf.2) = some p := by
    have := hp
    unfold get_piece_idx get_piece at this
    rwa [pyLower_itc hb.1 hb.2.1 hb.2.2.1 hb.2.2.2] at this
  have hppos : p.position = index_to_coord mf.1 mf.2 := hinv p hlook
  have hmem : index_to_coord mt.1 mt.2 ∈ valid_moves g.board p :=
    is_valid_move_mem hp hval
  have hne : index_to_coord mt.1 mt.2 ≠ index_to_coord mf.1 mf.2 := by
    intro he
    apply own_not_mem_valid_moves g.board p mf.1 mf.2
      hb.1 hb.2.1 hb.2.2.1 hb.2.2.2 hppos
    rw [hppos, ← he]
    exact hmem
  have hg' : (makeMoveApply g mf mt p (get_piece_idx g mt)).2 = g' :=
    congrArg Prod.snd happ
  have hboard := makeMoveApply_board g mf mt p (get_piece_idx g mt)
  rw [hg'] at hboard
  have hfs_ne_ts : index_to_coord mf.1 mf.2 ≠ index_to_coord mt.1 mt.2 :=
    fun he => hne he.symm
  refine ⟨p, hlook, ?_, ?_, ?_, ?_⟩
  · rw [hboard, lookupSq_setKey, if_neg hfs_ne_ts, lookupSq_eraseKey,
      if_pos rfl]
  · rw [hboard, lookupSq_setKey, if_pos rfl]
  · intro s hs1 hs2
    rw [hboard, lookupSq_setKey, if_neg hs2, lookupSq_eraseKey, if_neg hs1]
  · have hturn := makeMoveApply_turn g mf mt p (get_piece_idx g mt)
    rw [hg'] at hturn
    exact hturn

/-- Claim C8: `make_move` returns False and leaves the whole game state
unchanged whenever the outcome is not UNFINISHED, the origin square is
empty, the origin piece is not the current player's, or the destination
is not in the origin piece's legal-destination list. -/
theorem make_move_rejects (g : ChessGame) (mf mt : Int × Int)
    (h : g.gameState ≠ "UNFINISHED" ∨ get_piece_idx g mf = none ∨
      (∃ p, get_piece_idx g mf = some p ∧ p.color ≠ g.playerTurn) ∨
      (∃ p, get_piece_idx g mf = some p ∧
        index_to_coord mt.1 mt.2 ∉ valid_moves g.board p)) :
    make_move g mf mt = (false, g) := by
  unfold make_move
  by_cases h1 : g.gameState ≠ "UNFINISHED"
  · rw [if_pos h1]
  · rw [if_neg h1]
    push_neg at h1
    split
    · rfl
    · rename_i piece heq
      by_cases h2 : piece.color ≠ g.playerTurn
      · rw [if_pos h2]
      · rw [if_neg h2]
        push_neg at h2
        have h3 : is_valid_move g mf mt = false := by
          rcases h with h | h | ⟨q, hq, hcol⟩ | ⟨q, hq, hmem⟩
          · exact absurd h1 h
          · simp [h] at heq
          · rw [heq] at hq
            injection hq with hq
            subst hq
            exact absurd h2 hcol
          · rw [heq] at hq
            injection hq with hq
            subst hq
            unfold is_valid_move
            rw [heq]
            exact decide_eq_false hmem
        rw [if_pos h3]

/-- Claim C10: no piece on an on-board square lists its own square among
its valid moves, and consequently `make_move` with identical origin and
destination returns False (on any state satisfying the documented board
invariant that a stored piece's position matches its key). -/
theorem own_square_never_destination :
    (∀ (b : Board) (p : Piece) (c r : Int), 0 ≤ c → c < 8 → 0 ≤ r → r < 8 →
      p.position = index_to_coord c r → p.position ∉ valid_moves b p)
    ∧ (∀ (g : ChessGame) (c r : Int), 0 ≤ c → c < 8 → 0 ≤ r → r < 8 →
      (∀ p, lookupSq g.board (index_to_coord c r) = some p →
        p.position = index_to_coord c r) →
      (make_move g (c, r) (c, r)).1 = false) := by
  constructor
  · intro b p c r hc0 hc hr0 hr hpos
    exact own_not_mem_valid_moves b p c r hc0 hc hr0 hr hpos
  · intro g c r hc0 hc hr0 hr hinv
    by_cases hf : (make_move g (c, r) (c, r)).1 = false
    · exact hf
    · exfalso
      rcases hmk : make_move g (c, r) (c, r) with ⟨b1, g2⟩
      rw [hmk] at hf
      simp only at hf
      have hb1 : b1 = true := by revert hf; cases b1 <;> simp
      subst hb1
      obtain ⟨hst, p, hp, hcol, hval, happ⟩ := make_move_true_inv hmk
      have hlook : lookupSq g.board (index_to_coord c r) = some p := by
        unfold get_piece_idx get_piece at hp
        rwa [pyLower_itc hc0 hc hr0 hr] at hp
      have hppos : p.position = index_to_coord c r := hinv p hlook
      have hmem : index_to_coord c r ∈ valid_moves g.board p :=
        is_valid_move_mem hp hval
      apply own_not_mem_valid_moves g.board p c r hc0 hc hr0 hr hppos
      rw [hppos]
      exact hmem

/-- Claim C4: the coordinate transforms are exact mutual inverses — every
one of the 64 square notations round-trips through `coord_to_index` and
back, and every in-range `(col, row)` pair round-trips through
`index_to_coord` and back. -/
theorem coord_conversions_inverse :
    (∀ s ∈ allSquares,
      (coord_to_index s).map (fun ci => index_to_coord ci.1 ci.2) = some s)
    ∧ (∀ c r : Int, 0 ≤ c → c < 8 → 0 ≤ r → r < 8 →
      coord_to_index (index_to_coord c r) = some (c, r)) := by
  constructor
  · decide
  · intro c r hc0 hc hr0 hr
    exact coord_to_index_itc hc0 hc hr0 hr

/-- Claim C1 (evaluation at the failing input): on the freshly
initialized board the WHITE rook on a1 — whose sweep up the a-file meets
the friendly pawn on a2 as the first occupied square — nevertheless lists
a3 through a8, all strictly beyond that blocker, because the sweep loops
of the sliding pieces never stop on an occupied square, contradicting the
claim (and the classes' own docstrings). -/
theorem sliding_sweep_ignores_blockers :
    lookupSq board_start "a1" = some (Rook "WHITE" "a1") ∧
    is_square_open board_start "a2" = false ∧
    valid_moves board_start (Rook "WHITE" "a1") =
      ["a3", "a4", "a5", "a6", "a7", "a8"] := by decide

/-- Claim C5 counterexample: the freshly constructed board does not place
every piece on its canonical square — d8 holds the BLACK king where
canonical chess puts the queen. -/
theorem initial_board_black_royals_swapped :
    (lookupSq initialGame.board "d8").map (fun p => (p.ptype, p.color)) =
      some (PieceType.king, "BLACK") ∧
    canonicalSetup "d8" = some (PieceType.queen, "BLACK") := by decide

/-- Claim C5 amended: a fresh game is UNFINISHED with WHITE to move and
exactly 32 pieces whose stored positions match their keys; every square
carries the canonical chess setup except that the BLACK king and queen
are swapped (king on d8, queen on e8), and the remaining 32 squares are
empty. -/
theorem initial_board_layout :
    initialGame.gameState = "UNFINISHED" ∧
    initialGame.playerTurn = "WHITE" ∧
    initialGame.board.length = 32 ∧
    (initialGame.board.map Prod.fst).Nodup ∧
    (∀ e ∈ initialGame.board, e.2.position = e.1) ∧
    (∀ s ∈ allSquares,
      (lookupSq initialGame.board s).map (fun p => (p.ptype, p.color)) =
        (if s = "d8" then some (PieceType.king, "BLACK")
         else if s = "e8" then some (PieceType.queen, "BLACK")
         else canonicalSetup s)) := by decide

/-- Claim C6 counterexample: "z5" has its file letter outside a–h, yet
`coord_to_index` signals no error at all — it silently returns the
out-of-range indices (25, 3), and `parse_position` passes them along
instead of catching anything. -/
theorem malformed_coord_not_an_error :
    coord_to_index "z5" = some (25, 3) ∧
    parse_position "z5" "a1" = some ((25, 3), (0, 7)) := by decide

/-- Claim C6 amended: `coord_to_index` raises (an error `parse_position`
catches) exactly when the input is empty or its tail is not an integer
literal; file letters outside a–h or rank numbers outside 1–8 that still
parse as integers are converted silently. -/
theorem coord_error_characterization :
    (∀ s : String, coord_to_index s = none ↔
      (s.data = [] ∨ pyInt (String.mk s.data.tail) = none))
    ∧ (∀ fp tp : String, parse_position fp tp = none ↔
      (coord_to_index fp = none ∨ coord_to_index tp = none)) := by
  constructor
  · intro s
    unfold coord_to_index
    cases hd : s.data with
    | nil => simp
    | cons c rest =>
      cases hp : pyInt (String.mk rest) <;> simp [hp]
  · intro fp tp
    unfold parse_position
    cases h1 : coord_to_index fp <;> cases h2 : coord_to_index tp <;>
      simp [h1, h2]

/-- Claim C9: `set_game_state` raises InvalidStateError and leaves the
outcome unchanged on any value outside the three recognized states, and
assigns the outcome without raising on each of the three. -/
theorem set_game_state_contract (g : ChessGame) (s : String) :
    (s ∉ all_states → set_game_state g s = (g, some ChessErr.invalidState))
    ∧ (s ∈ all_states →
      set_game_state g s = ({ g with gameState := s }, none)) := by
  constructor <;> intro h <;> unfold set_game_state <;> simp [h]

/-- Claim C7: a pawn's double forward step is listed only when its
`_init_move` flag is still set and the intermediate and destination rows
are within bounds; that legality does not require the intermediate square
to be empty (an open destination suffices); and once the flag is cleared
the double step is never listed again, regardless of square emptiness. -/
theorem pawn_double_step (b : Board) (p : Piece) (c r : Int)
    (hc0 : 0 ≤ c) (hc : c < 8) (hr0 : 0 ≤ r) (hr : r < 8)
    (hpos : p.position = index_to_coord c r)
    (hpt : p.ptype = PieceType.pawn) :
    (index_to_coord c (r - 2 * (if p.color = "WHITE" then 1 else -1)) ∈
        valid_moves b p →
      p.initMove = true ∧
      0 ≤ r - (if p.color = "WHITE" then 1 else -1) ∧
      r - (if p.color = "WHITE" then 1 else -1) < 8 ∧
      0 ≤ r - 2 * (if p.color = "WHITE" then 1 else -1) ∧
      r - 2 * (if p.color = "WHITE" then 1 else -1) < 8)
    ∧ (p.initMove = true →
      0 ≤ r - (if p.color = "WHITE" then 1 else -1) →
      r - (if p.color = "WHITE" then 1 else -1) < 8 →
      0 ≤ r - 2 * (if p.color = "WHITE" then 1 else -1) →
      r - 2 * (if p.color = "WHITE" then 1 else -1) < 8 →
      is_square_open b
        (index_to_coord c
          (r - 2 * (if p.color = "WHITE" then 1 else -1))) = true →
      index_to_coord c (r - 2 * (if p.color = "WHITE" then 1 else -1)) ∈
        valid_moves b p)
    ∧ (p.initMove = false →
      index_to_coord c (r - 2 * (if p.color = "WHITE" then 1 else -1)) ∉
        valid_moves b p) := by
  have hstart : coord_to_indexD p.position = (c, r) := by
    rw [hpos]; exact coord_to_indexD_itc hc0 hc hr0 hr
  have hvm : valid_moves b p = pawn_valid_moves b p := by
    unfold valid_moves; rw [hpt]
  set d : Int := (if p.color = "WHITE" then 1 else -1) with hdd
  have hd : d = 1 ∨ d = -1 := by rw [hdd]; split <;> simp
  have hlist : pawn_valid_moves b p =
      (if 0 ≤ r - d ∧ r - d < 8 then
        (if is_square_open b (index_to_coord c (r - d)) then
          [index_to_coord c (r - d)] else []) ++
        (if p.initMove then
          if 0 ≤ r - 2 * d ∧ r - 2 * d < 8 then
            if is_square_open b (index_to_coord c (r - 2 * d)) then
              [index_to_coord c (r - 2 * d)] else []
          else []
        else [])
      else []) ++
      ([-1, 1] : List Int).flatMap (fun diagonal =>
        if 0 ≤ c + diagonal ∧ c + diagonal < 8 then
          (if is_opponent b (index_to_coord (c + diagonal) (r - d)) p.color
           then [index_to_coord (c + diagonal) (r - d)] else [])
        else []) := by
    unfold pawn_valid_moves
    rw [hstart, ← hdd]
  have parta : index_to_coord c (r - 2 * d) ∈ valid_moves b p →
      p.initMove = true ∧ 0 ≤ r - d ∧ r - d < 8 ∧
      0 ≤ r - 2 * d ∧ r - 2 * d < 8 := by
    intro hmem
    rw [hvm, hlist] at hmem
    rcases List.mem_append.mp hmem with h1 | h2
    · by_cases hb1 : 0 ≤ r - d ∧ r - d < 8
      · rw [if_pos hb1] at h1
        rcases List.mem_append.mp h1 with h1a | h1b
        · split_ifs at h1a with hop
          · simp only [List.mem_singleton] at h1a
            obtain ⟨e1, e2⟩ := index_to_coord_inj ⟨hc0, hc⟩ ⟨hc0, hc⟩
              ⟨by rcases hd with h | h <;> omega,
               by rcases hd with h | h <;> omega⟩
              ⟨by rcases hd with h | h <;> omega,
               by rcases hd with h | h <;> omega⟩ h1a
            rcases hd with h | h <;> omega
          · simp at h1a
        · split_ifs at h1b with hini hb2 hop2 <;>
            simp only [List.mem_singleton, List.not_mem_nil] at h1b <;>
            try exact h1b.elim
          exact ⟨hini, hb1.1, hb1.2, hb2.1, hb2.2⟩
      · rw [if_neg hb1] at h1
        simp at h1
    · simp only [List.mem_flatMap, List.mem_cons, List.not_mem_nil,
        or_false] at h2
      obtain ⟨diag, hdiag, h2⟩ := h2
      rcases hdiag with rfl | rfl <;>
      · split_ifs at h2 with hbc hop <;>
          simp only [List.mem_singleton, List.not_mem_nil] at h2 <;>
          try exact h2.elim
        obtain ⟨e1, e2⟩ := index_to_coord_inj ⟨hc0, hc⟩ ⟨hbc.1, hbc.2⟩
          ⟨by rcases hd with h | h <;> omega,
           by rcases hd with h | h <;> omega⟩
          ⟨by rcases hd with h | h <;> omega,
           by rcases hd with h | h <;> omega⟩ h2
        omega
  refine ⟨parta, ?_, ?_⟩
  · intro hini hb1a hb1b hb2a hb2b hopen
    rw [hvm, hlist]
    apply List.mem_append_left
    rw [if_pos ⟨hb1a, hb1b⟩]
    apply List.mem_append_right
    rw [if_pos hini, if_pos ⟨hb2a, hb2b⟩, if_pos hopen]
    exact List.mem_singleton_self _
  · intro hflag hmem
    have h := parta hmem
    rw [hflag] at h
    simp at h

/-! ### Witnesses -/

/-- Witness for C2: a finished game rejects a further move unchanged, and
the queen-takes-king move in `kingCapGame` ends the game as WHITE_WON
with no turn toggle. -/
theorem outcome_monotonic_king_capture_witness :
    make_move finishedGame (0, 6) (0, 5) = (false, finishedGame) ∧
    (make_move kingCapGame (0, 7) (0, 6)).2.gameState = "WHITE_WON" ∧
    (make_move kingCapGame (0, 7) (0, 6)).2.playerTurn = "WHITE" := by
  refine ⟨(outcome_monotonic_king_capture finishedGame (0, 6) (0, 5)).1
    (Or.inl rfl), ?_, ?_⟩
  all_goals {
    have h1 : (make_move kingCapGame (0, 7) (0, 6)).1 = true := by decide
    have hmk : make_move kingCapGame (0, 7) (0, 6) =
        (true, (make_move kingCapGame (0, 7) (0, 6)).2) := by
      have h2 : ((make_move kingCapGame (0, 7) (0, 6)).1,
          (make_move kingCapGame (0, 7) (0, 6)).2) =
          make_move kingCapGame (0, 7) (0, 6) := Prod.mk.eta
      rw [h1] at h2
      exact h2.symm
    have h2 := (outcome_monotonic_king_capture kingCapGame (0, 7) (0, 6)).2
      (make_move kingCapGame (0, 7) (0, 6)).2
      (Queen "WHITE" "a1") (King "BLACK" "a2") (by decide) (by decide) rfl hmk
    first
      | exact h2.1.trans (by decide)
      | exact h2.2
  }

/-- Witness for C3: the opening move e2–e4 empties e2, puts the moved
pawn (position e4, flag cleared) on e4, leaves d1 untouched, and passes
the turn to BLACK. -/
theorem accepted_move_frame_witness :
    lookupSq (make_move initialGame (4, 6) (4, 4)).2.board "e2" = none ∧
    lookupSq (make_move initialGame (4, 6) (4, 4)).2.board "e4" =
      some { Pawn "WHITE" "e2" with position := "e4", initMove := false } ∧
    lookupSq (make_move initialGame (4, 6) (4, 4)).2.board "d1" =
      lookupSq initialGame.board "d1" ∧
    (make_move initialGame (4, 6) (4, 4)).2.playerTurn = "BLACK" := by
  have h1 : (make_move initialGame (4, 6) (4, 4)).1 = true := by decide
  have hmk : make_move initialGame (4, 6) (4, 4) =
      (true, (make_move initialGame (4, 6) (4, 4)).2) := by
    have h2 : ((make_move initialGame (4, 6) (4, 4)).1,
        (make_move initialGame (4, 6) (4, 4)).2) =
        make_move initialGame (4, 6) (4, 4) := Prod.mk.eta
    rw [h1] at h2
    exact h2.symm
  obtain ⟨p, hlook, hempty, hdest, hframe, hturn⟩ :=
    accepted_move_frame initialGame (4, 6) (4, 4) _ (by decide)
      (fun q hq => by
        have h2 : some (Pawn "WHITE" "e2") = some q := by rw [← hq]; decide
        injection h2 with h2
        rw [← h2]
        rfl) hmk
  have hp : p = Pawn "WHITE" "e2" := by
    have h2 : some (Pawn "WHITE" "e2") = some p := by rw [← hlook]; decide
    injection h2 with h2
    exact h2.symm
  subst hp
  exact ⟨hempty, hdest, hframe "d1" (by decide) (by decide),
    by rw [hturn]; decide⟩

/-- Witness for C4: both round trips at e2 and (4, 6). -/
theorem coord_conversions_inverse_witness :
    (coord_to_index "e2").map (fun ci => index_to_coord ci.1 ci.2) =
      some "e2" ∧
    coord_to_index (index_to_coord 4 6) = some (4, 6) :=
  ⟨coord_conversions_inverse.1 "e2" (by decide),
   coord_conversions_inverse.2 4 6 (by decide) (by decide) (by decide)
     (by decide)⟩

/-- Witness for C5 (amended): a1 carries its canonical content in the
fresh game. -/
theorem initial_board_layout_witness :
    (lookupSq initialGame.board "a1").map (fun p => (p.ptype, p.color)) =
      canonicalSetup "a1" := by
  have h := initial_board_layout.2.2.2.2.2 "a1" (by decide)
  rwa [if_neg (by decide), if_neg (by decide)] at h

/-- Witness for C7: on `pawnBlockedBoard` the intermediate square e3 is
occupied, yet the unmoved e2 pawn still lists the double step e4. -/
theorem pawn_double_step_witness :
    is_square_open pawnBlockedBoard "e3" = false ∧
    "e4" ∈ valid_moves pawnBlockedBoard (Pawn "WHITE" "e2") := by
  refine ⟨by decide, ?_⟩
  exact (pawn_double_step pawnBlockedBoard (Pawn "WHITE" "e2") 4 6
    (by decide) (by decide) (by decide) (by decide) rfl rfl).2.1
    rfl (by decide) (by decide) (by decide) (by decide) (by decide)

/-- Witness for C8: WHITE's e2 pawn cannot reach e5, so the move is
rejected with the game unchanged. -/
theorem make_move_rejects_witness :
    make_move initialGame (4, 6) (4, 3) = (false, initialGame) :=
  make_move_rejects initialGame (4, 6) (4, 3)
    (Or.inr (Or.inr (Or.inr ⟨Pawn "WHITE" "e2", by decide, by decide⟩)))

/-- Witness for C9: an unrecognized state raises and changes nothing; a
recognized one is assigned. -/
theorem set_game_state_contract_witness :
    set_game_state initialGame "STALEMATE" =
      (initialGame, some ChessErr.invalidState) ∧
    set_game_state initialGame "BLACK_WON" =
      ({ initialGame with gameState := "BLACK_WON" }, none) :=
  ⟨(set_game_state_contract initialGame "STALEMATE").1 (by decide),
   (set_game_state_contract initialGame "BLACK_WON").2 (by decide)⟩

/-- Witness for C10: the e2 pawn never lists e2, and the identity move on
e2 is rejected. -/
theorem own_square_never_destination_witness :
    "e2" ∉ valid_moves board_start (Pawn "WHITE" "e2") ∧
    (make_move initialGame (4, 6) (4, 6)).1 = false := by
  constructor
  · exact own_square_never_destination.1 board_start (Pawn "WHITE" "e2")
      4 6 (by decide) (by decide) (by decide) (by decide) rfl
  · exact own_square_never_destination.2 initialGame 4 6 (by decide)
      (by decide) (by decide) (by decide)
      (fun p hp => by
        have h2 : some (Pawn "WHITE" "e2") = some p := by rw [← hp]; decide
        injection h2 with h2
        rw [← h2]
        rfl)

end BasicChess
